import Mathlib

/-!
Verification of the RacingDashCam presentation and recording core.

The definitions below are a shallow embedding of the Python sources
`video_display.py`, `video_display_drmkms.py` and `video_recorder.py`:
pure pixel arithmetic becomes functions on `Nat`, numpy arrays become
lists of lists (row-major), stateful methods become explicit state
passing, and external calls (DRM ioctls, encoder start) become boolean
outcome parameters.  Machine integers are modelled as `Nat` with the
source's own masking, since every value handled by the hot loops fits
the numpy dtypes used there.
-/

namespace DashCam

/-- An 8-bit RGB pixel as handled by the display path (values 0..255). -/
structure RGB where
  r : ℕ
  g : ℕ
  b : ℕ
deriving DecidableEq, Repr

instance : Inhabited RGB := ⟨⟨0, 0, 0⟩⟩

/-- An RGBA pixel of a rendered overlay (values 0..255, `a` is alpha). -/
structure RGBA where
  r : ℕ
  g : ℕ
  b : ℕ
  a : ℕ
deriving DecidableEq, Repr

instance : Inhabited RGBA := ⟨⟨0, 0, 0, 0⟩⟩

/-- Per-pixel body of `pack_rgb565_jit` (video_display.py): the three
masked-and-shifted fields or-ed into one 16-bit word. -/
def pack_rgb565_word (r g b : ℕ) : ℕ :=
  let r5 := (r >>> 3) &&& 0x1F
  let g6 := (g >>> 2) &&& 0x3F
  let b5 := (b >>> 3) &&& 0x1F
  ((r5 <<< 11) ||| (g6 <<< 5)) ||| b5

/-- Grid-level `pack_rgb565_jit`: packs every pixel of the frame. -/
def pack_rgb565_jit (frame : List (List RGB)) : List (List ℕ) :=
  frame.map (fun row => row.map (fun p => pack_rgb565_word p.r p.g p.b))

/-- Little-endian serialization of one 16-bit word, as performed by
`astype('<u2').tobytes()` in `_write_frame`. -/
def le16_bytes (w : ℕ) : List ℕ :=
  [w % 256, w / 256 % 256]

/-- Per-pixel body of `pack_xrgb8888_jit` (video_display_drmkms.py). -/
def pack_xrgb8888_word (r g b : ℕ) : ℕ :=
  ((r <<< 16) ||| (g <<< 8)) ||| b

/-- Grid-level `pack_xrgb8888_jit`. -/
def pack_xrgb8888_jit (frame : List (List RGB)) : List (List ℕ) :=
  frame.map (fun row => row.map (fun p => pack_xrgb8888_word p.r p.g p.b))

/-- Little-endian serialization of one 32-bit word (`uint32.tobytes()`). -/
def le32_bytes (w : ℕ) : List ℕ :=
  [w % 256, w / 256 % 256, w / 65536 % 256, w / 16777216 % 256]

lemma shiftLeft_lor_eq_add {a b k : ℕ} (hb : b < 2 ^ k) :
    (a <<< k) ||| b = a <<< k + b := by
  apply Nat.eq_of_testBit_eq
  intro j
  have hmul : a <<< k + b = 2 ^ k * a + b := by
    rw [Nat.shiftLeft_eq, mul_comm]
  have h0 : (2 ^ k * a).testBit j =
      if j < k then false else a.testBit (j - k) := by
    have hz : (0 : ℕ) < 2 ^ k := Nat.pos_pow_of_pos _ (by norm_num)
    simpa using Nat.testBit_mul_pow_two_add a hz j
  rw [Nat.testBit_lor, hmul, Nat.testBit_mul_pow_two_add a hb j,
    Nat.shiftLeft_eq, mul_comm a (2 ^ k), h0]
  by_cases hj : j < k
  · simp [hj]
  · have hbj : b.testBit j = false := by
      apply Nat.testBit_lt_two_pow
      exact lt_of_lt_of_le hb (Nat.pow_le_pow_right (by norm_num) (le_of_not_lt hj))
    simp [hj, hbj]

lemma rgb565_fields_add {a b c : ℕ} (hb2 : b < 64) (hc : c < 32) :
    ((a <<< 11) ||| (b <<< 5)) ||| c = a * 2048 + (b * 32 + c) := by
  rw [Nat.lor_assoc]
  have hinner : (b <<< 5) ||| c = b * 32 + c := by
    rw [shiftLeft_lor_eq_add (show c < 2 ^ 5 by omega), Nat.shiftLeft_eq]
  rw [hinner]
  have hlt : b * 32 + c < 2 ^ 11 := by omega
  rw [shiftLeft_lor_eq_add hlt, Nat.shiftLeft_eq]

lemma pack_rgb565_word_eq_add {r g b : ℕ} (hr : r < 256) (hg : g < 256)
    (hb : b < 256) :
    pack_rgb565_word r g b = r / 8 * 2048 + (g / 4 * 32 + b / 8) := by
  have h1 : (r >>> 3) &&& 0x1F = r / 8 := by
    have e := Nat.and_pow_two_sub_one_eq_mod (r >>> 3) 5
    norm_num at e
    rw [e, Nat.shiftRight_eq_div_pow]
    norm_num
    omega
  have h2 : (g >>> 2) &&& 0x3F = g / 4 := by
    have e := Nat.and_pow_two_sub_one_eq_mod (g >>> 2) 6
    norm_num at e
    rw [e, Nat.shiftRight_eq_div_pow]
    norm_num
    omega
  have h3 : (b >>> 3) &&& 0x1F = b / 8 := by
    have e := Nat.and_pow_two_sub_one_eq_mod (b >>> 3) 5
    norm_num at e
    rw [e, Nat.shiftRight_eq_div_pow]
    norm_num
    omega
  unfold pack_rgb565_word
  simp only [h1, h2, h3]
  exact rgb565_fields_add (by omega) (by omega)

lemma pack_xrgb8888_word_eq_add (r : ℕ) {g b : ℕ} (hg : g < 256) (hb : b < 256) :
    pack_xrgb8888_word r g b = r * 65536 + g * 256 + b := by
  unfold pack_xrgb8888_word
  have h1 : (r <<< 16) ||| (g <<< 8) = r <<< 16 + g <<< 8 := by
    apply shiftLeft_lor_eq_add
    rw [Nat.shiftLeft_eq]
    norm_num
    omega
  have h2 : r <<< 16 + g <<< 8 = (r * 256 + g) <<< 8 := by
    simp only [Nat.shiftLeft_eq]
    ring
  rw [h1, h2, shiftLeft_lor_eq_add (show b < 2 ^ 8 by omega), Nat.shiftLeft_eq]
  ring

/-- Claim C3: per 8-bit pixel the RGB565 packer yields exactly
`(R>>3)<<11 | (G>>2)<<5 | (B>>3)` (a 16-bit word, serialized as two
little-endian bytes), the XRGB8888 packer yields exactly
`R<<16 | G<<8 | B` with the top byte zero, and the grid packers apply
these words to every pixel of every frame. -/
theorem pack_words_correct (r g b : ℕ) (hr : r < 256) (hg : g < 256)
    (hb : b < 256) :
    pack_rgb565_word r g b = ((r >>> 3) <<< 11 ||| (g >>> 2) <<< 5) ||| b >>> 3
    ∧ pack_rgb565_word r g b < 65536
    ∧ le16_bytes (pack_rgb565_word r g b) =
        [pack_rgb565_word r g b % 256, pack_rgb565_word r g b / 256]
    ∧ pack_xrgb8888_word r g b = ((r <<< 16) ||| (g <<< 8)) ||| b
    ∧ pack_xrgb8888_word r g b / 16777216 = 0
    ∧ (∀ (frame : List (List RGB)) (y x : ℕ),
        ((pack_rgb565_jit frame).getD y [])[x]? =
          ((frame.getD y [])[x]?).map (fun p => pack_rgb565_word p.r p.g p.b))
    ∧ (∀ (frame : List (List RGB)) (y x : ℕ),
        ((pack_xrgb8888_jit frame).getD y [])[x]? =
          ((frame.getD y [])[x]?).map (fun p => pack_xrgb8888_word p.r p.g p.b)) := by
  have hadd := pack_rgb565_word_eq_add hr hg hb
  have hxadd := pack_xrgb8888_word_eq_add r hg hb
  refine ⟨?_, by omega, ?_, rfl, ?_, ?_, ?_⟩
  · have hclaim : ((r >>> 3) <<< 11 ||| (g >>> 2) <<< 5) ||| b >>> 3 =
        r / 8 * 2048 + (g / 4 * 32 + b / 8) := by
      simp only [Nat.shiftRight_eq_div_pow]
      norm_num
      exact rgb565_fields_add (by omega) (by omega)
    rw [hadd, hclaim]
  · unfold le16_bytes
    have h256 : pack_rgb565_word r g b / 256 < 256 := by omega
    rw [Nat.mod_eq_of_lt h256]
  · rw [hxadd]
    omega
  · intro frame y x
    simp only [pack_rgb565_jit, List.getD_eq_getElem?_getD, List.getElem?_map]
    cases hrow : frame[y]? with
    | none => simp
    | some row => simp [List.getElem?_map]
  · intro frame y x
    simp only [pack_xrgb8888_jit, List.getD_eq_getElem?_getD, List.getElem?_map]
    cases hrow : frame[y]? with
    | none => simp
    | some row => simp [List.getElem?_map]

/-- Witness for `pack_words_correct` at the pixel (200, 100, 50). -/
theorem pack_words_correct_witness :
    pack_rgb565_word 200 100 50 =
      ((200 >>> 3) <<< 11 ||| (100 >>> 2) <<< 5) ||| 50 >>> 3 := by
  exact (pack_words_correct 200 100 50 (by decide) (by decide) (by decide)).1

/-!
FrameBus: `update_frame` in both backends stores the newest frame in a
single slot and bumps `frame_count`; the display loop reads the slot
without clearing it.
-/

/-- The single-slot latest-frame register shared by `VideoDisplay` and
`DrmKmsDisplay` (`current_frame` plus `frame_count`). -/
structure FrameSlot (α : Type u) where
  current : Option α
  count : ℕ
deriving DecidableEq, Repr

/-- `update_frame(frame)`: overwrite the slot, bump the counter. -/
def update_frame {α} (s : FrameSlot α) (frame : α) : FrameSlot α :=
  { current := some frame, count := s.count + 1 }

/-- The display loop's read of the slot (`frame = self.current_frame`;
the slot is deliberately not cleared). -/
def take_frame {α} (s : FrameSlot α) : Option α :=
  s.current

lemma foldl_update_count {α} (s : FrameSlot α) (l : List α) :
    (l.foldl update_frame s).count = s.count + l.length := by
  induction l generalizing s with
  | nil => simp
  | cons x xs ih =>
    rw [List.foldl_cons, ih]
    simp [update_frame]
    omega

lemma foldl_update_read {α} (s : FrameSlot α) (l : List α) (h : l ≠ []) :
    take_frame (l.foldl update_frame s) = some (l.getLast h) := by
  induction l generalizing s with
  | nil => exact absurd rfl h
  | cons x xs ih =>
    cases xs with
    | nil => simp [take_frame, update_frame]
    | cons y ys =>
      rw [List.foldl_cons, ih (update_frame s x) (by simp)]
      exact congrArg some ((List.getLast_cons (by simp)).symm)

/-- Claim C9: after any nonempty sequence of `update_frame` calls the
slot read returns the most recently updated frame, the counter grows by
exactly one per call, and a single update overwrites whatever was in
the slot (no queueing of older frames). -/
theorem update_frame_latest {α} (s : FrameSlot α) (l : List α) (h : l ≠ []) :
    take_frame (l.foldl update_frame s) = some (l.getLast h)
    ∧ (l.foldl update_frame s).count = s.count + l.length
    ∧ ∀ f : α, take_frame (update_frame s f) = some f := by
  refine ⟨foldl_update_read s l h, foldl_update_count s l, ?_⟩
  intro f
  rfl

/-- Witness for `update_frame_latest`: three updates into an empty slot. -/
theorem update_frame_latest_witness :
    take_frame ([1, 2, 3].foldl update_frame (⟨none, 0⟩ : FrameSlot ℕ)) = some 3 := by
  have h := update_frame_latest (⟨none, 0⟩ : FrameSlot ℕ) [1, 2, 3] (by decide)
  simpa using h.1

/-!
TransformStage: `_apply_transform` in both backends.  numpy arrays are
rectangular, so `np.rot90` is embedded by its index semantics
(`rot90(m)[i][j] = m[j][W-1-i]`), `np.fliplr` reverses each row and
`np.flipud` reverses the row order.
-/

/-- Element access `g[y][x]` on a row-major grid (out-of-range reads
return the default element; numpy arrays never index out of range). -/
def gget {α} [Inhabited α] (g : List (List α)) (y x : ℕ) : α :=
  (g.getD y []).getD x default

/-- The number of columns (`shape[1]`) of a rectangular grid. -/
def gwidth {α} (g : List (List α)) : ℕ :=
  (g.getD 0 []).length

/-- `np.rot90` (one counter-clockwise quarter turn) by its index
semantics on a rectangular array. -/
def rot90 {α} [Inhabited α] (g : List (List α)) : List (List α) :=
  (List.range (gwidth g)).map (fun i =>
    (List.range g.length).map (fun j => gget g j (gwidth g - 1 - i)))

/-- `np.fliplr`: reverse every row. -/
def fliplr {α} (g : List (List α)) : List (List α) :=
  g.map List.reverse

/-- `np.flipud`: reverse the row order. -/
def flipud {α} (g : List (List α)) : List (List α) :=
  g.reverse

/-- `_apply_transform(frame, rotation, hflip, vflip, mirror_mode)`:
normalize the rotation mod 360, rotate `(r // 90) % 4` quarter turns
when nonzero, then hflip, then vflip, then one more horizontal flip
when `mirror_mode` is set. -/
def apply_transform {α} [Inhabited α] (frame : List (List α)) (rotation : ℕ)
    (hflip vflip : Bool) (mirror_mode : Bool) : List (List α) :=
  let r := rotation % 360
  let img := if r ≠ 0 then rot90^[r / 90 % 4] frame else frame
  let img2 := if hflip then fliplr img else img
  let img3 := if vflip then flipud img2 else img2
  if mirror_mode then fliplr img3 else img3

/-- Modelled from the claim wording: quarter-turn rotation first, then
horizontal flip, then vertical flip, with `mirror` one additional
horizontal flip always last. -/
def apply_transform_spec {α} [Inhabited α] (frame : List (List α)) (rotation : ℕ)
    (hflip vflip : Bool) (mirror : Bool) : List (List α) :=
  let img := rot90^[rotation / 90] frame
  let img2 := if hflip then fliplr img else img
  let img3 := if vflip then flipud img2 else img2
  if mirror then fliplr img3 else img3

/-- Claim C10: for rotations in {0,90,180,270} the transform stage is
the claimed composition (rotation, then hflip, then vflip, with mirror
one extra horizontal flip applied last), `mirror = true` equals an
extra `fliplr` applied to the `mirror = false` result, and the
all-defaults transform is the identity. -/
theorem apply_transform_correct {α} [Inhabited α] (frame : List (List α))
    (rotation : ℕ) (hflip vflip : Bool)
    (hr : rotation = 0 ∨ rotation = 90 ∨ rotation = 180 ∨ rotation = 270) :
    apply_transform frame rotation hflip vflip true =
      fliplr (apply_transform frame rotation hflip vflip false)
    ∧ apply_transform frame 0 false false false = frame
    ∧ ∀ mirror : Bool, apply_transform frame rotation hflip vflip mirror =
        apply_transform_spec frame rotation hflip vflip mirror := by
  refine ⟨by simp [apply_transform], rfl, ?_⟩
  intro mirror
  rcases hr with h | h | h | h <;> subst h <;>
    simp [apply_transform, apply_transform_spec]

/-- Witness for `apply_transform_correct`: a 2×3 grid rotated 90°. -/
theorem apply_transform_correct_witness :
    apply_transform [[1, 2, 3], [4, 5, 6]] 90 true false true =
      fliplr (apply_transform [[1, 2, 3], [4, 5, 6]] 90 true false false) := by
  exact (apply_transform_correct ([[1, 2, 3], [4, 5, 6]] : List (List ℕ))
    90 true false (by norm_num)).1

/-!
OverlayCache mask extraction and Compositor: `_precompute_blend_mask`
and `_apply_blended_overlay` (identical in both backends).
-/

/-- Alpha channel of the overlay at (y, x) (`overlay_rgba[:, :, 3]`). -/
def alphaAt (ov : List (List RGBA)) (y x : ℕ) : ℕ :=
  (gget ov y x).a

/-- Index set of the non-transparent overlay pixels (`np.where(alpha > 0)`). -/
def overlay_support (ov : List (List RGBA)) : Finset (ℕ × ℕ) :=
  (Finset.range ov.length ×ˢ Finset.range (gwidth ov)).filter
    (fun p => 0 < alphaAt ov p.1 p.2)

/-- The cached blend mask: the tight bounding box of the non-transparent
region plus the overlay pixels (the source stores the `o_sub` slice;
keeping the whole overlay with absolute bbox coordinates is the same
data, since the slice is only read at `[y - y0, x - x0]`). -/
structure BlendMask where
  y0 : ℕ
  y1 : ℕ
  x0 : ℕ
  x1 : ℕ
  overlay : List (List RGBA)
deriving DecidableEq, Repr

/-- `_precompute_blend_mask`: `None` when the overlay is fully
transparent, otherwise the bbox given by min/max of the nonzero-alpha
row and column indices. -/
def precompute_blend_mask (ov : List (List RGBA)) : Option BlendMask :=
  if h : (overlay_support ov).Nonempty then
    some { y0 := ((overlay_support ov).image Prod.fst).min' (h.image _)
         , y1 := ((overlay_support ov).image Prod.fst).max' (h.image _)
         , x0 := ((overlay_support ov).image Prod.snd).min' (h.image _)
         , x1 := ((overlay_support ov).image Prod.snd).max' (h.image _)
         , overlay := ov }
  else none

/-- One channel of the integer blend:
`(alpha * overlay + (255 - alpha) * frame + 127) // 255`, then
`np.clip(..., 0, 255)` (the lower clip is vacuous over ℕ). -/
def blend_channel (a o f : ℕ) : ℕ :=
  min ((a * o + (255 - a) * f + 127) / 255) 255

/-- Pixel-level blend of an overlay RGBA pixel into a frame RGB pixel. -/
def blend_pixel (o : RGBA) (f : RGB) : RGB :=
  { r := blend_channel o.a o.r f.r
  , g := blend_channel o.a o.g f.g
  , b := blend_channel o.a o.b f.b }

/-- Map with explicit indices, used to embed numpy's in-place writes to
the `[y0:y1+1, x0:x1+1]` sub-rectangle. -/
def idxMapFrom {α β} (f : ℕ → α → β) : ℕ → List α → List β
  | _, [] => []
  | i, x :: xs => f i x :: idxMapFrom f (i + 1) xs

lemma idxMapFrom_getElem? {α β} (f : ℕ → α → β) (i j : ℕ) (l : List α) :
    (idxMapFrom f i l)[j]? = (l[j]?).map (f (i + j)) := by
  induction l generalizing i j with
  | nil => simp [idxMapFrom]
  | cons x xs ih =>
    cases j with
    | zero => simp [idxMapFrom]
    | succ j =>
      simp only [idxMapFrom, List.getElem?_cons_succ, ih (i + 1) j]
      have : i + 1 + j = i + (j + 1) := by omega
      rw [this]

/-- The per-pixel blend of the bbox sub-rectangle, reading the cached
overlay slice at the relative coordinates `[y - y0, x - x0]`. -/
def blend_grid (frame : List (List RGB)) (m : BlendMask) :
    List (List RGB) :=
  idxMapFrom (fun y row =>
    idxMapFrom (fun x px =>
      if m.y0 ≤ y ∧ y ≤ m.y1 ∧ m.x0 ≤ x ∧ x ≤ m.x1 then
        blend_pixel (gget m.overlay (m.y0 + (y - m.y0)) (m.x0 + (x - m.x0))) px
      else px) 0 row) 0 frame

/-- The mask's bounding box lies entirely within the frame.  Stated
row-wise so it is meaningful on the list model; on the rectangular
arrays numpy handles it is exactly `y1 < H ∧ x1 < W`. -/
def bbox_in_frame (frame : List (List RGB)) (m : BlendMask) : Prop :=
  m.y1 < frame.length
  ∧ ∀ y ∈ Finset.Icc m.y0 m.y1, m.x1 < (frame.getD y []).length

instance bbox_in_frame_dec (frame : List (List RGB)) (m : BlendMask) :
    Decidable (bbox_in_frame frame m) :=
  inferInstanceAs (Decidable (_ ∧ _))

/-- `_apply_blended_overlay(frame, blend_mask)`: blend the overlay into
the frame on the bbox sub-rectangle.  The slice, broadcast and
write-back sit in a `try` arm: when the bbox is not fully contained in
the frame, numpy's broadcast or write-back raises (before any element
is mutated) and the `except` arm returns the frame unchanged. -/
def apply_blended_overlay (frame : List (List RGB)) (m : BlendMask) :
    List (List RGB) :=
  if bbox_in_frame frame m then blend_grid frame m else frame

/-- The blend call site in the display loop: compositing is skipped
entirely when the cached mask is `None`. -/
def composite_step (frame : List (List RGB)) : Option BlendMask → List (List RGB)
  | none => frame
  | some m => apply_blended_overlay frame m

lemma blend_grid_getElem? (frame : List (List RGB)) (m : BlendMask)
    (y x : ℕ) :
    ((blend_grid frame m).getD y [])[x]? =
      ((frame.getD y [])[x]?).map (fun px =>
        if m.y0 ≤ y ∧ y ≤ m.y1 ∧ m.x0 ≤ x ∧ x ≤ m.x1 then
          blend_pixel (gget m.overlay (m.y0 + (y - m.y0)) (m.x0 + (x - m.x0))) px
        else px) := by
  unfold blend_grid
  rw [List.getD_eq_getElem?_getD, idxMapFrom_getElem?, List.getD_eq_getElem?_getD]
  cases hrow : frame[y]? with
  | none => simp
  | some row =>
    simp only [Option.map_some', Option.getD_some]
    rw [idxMapFrom_getElem?]
    simp

/-- Counterexample to claim C4 as stated: compositing a 1×1 frame with
a cached mask whose bbox is 2×2 (an overlay larger than the frame, as
happens when the display-sized overlay meets a rotated camera-sized
frame) raises in numpy and is caught, so the in-bbox pixel (0,0) keeps
its original value instead of becoming the claimed blend. -/
theorem compositor_bbox_overflow_unblended :
    composite_step [[⟨10, 20, 30⟩]]
      (precompute_blend_mask
        [[⟨100, 100, 100, 128⟩, ⟨100, 100, 100, 128⟩],
         [⟨100, 100, 100, 128⟩, ⟨100, 100, 100, 128⟩]]) = [[⟨10, 20, 30⟩]]
    ∧ blend_pixel ⟨100, 100, 100, 128⟩ ⟨10, 20, 30⟩ ≠ (⟨10, 20, 30⟩ : RGB) := by
  constructor
  · decide
  · decide

/-- Claim C4 (amended): the compositor never changes a pixel outside
the mask's bbox; when the bbox lies entirely within the frame, each
pixel inside it becomes, per channel,
`(alpha*overlay + (255-alpha)*frame + 127) / 255` clamped to [0, 255]
(over ℕ the lower clamp is vacuous; the upper clamp is the `min _ 255`);
when the bbox exceeds the frame, the broadcast/write-back raises and
the except arm returns the frame bit-for-bit unchanged. -/
theorem compositor_blend_correct (frame : List (List RGB)) (m : BlendMask)
    (y x : ℕ) :
    (¬(m.y0 ≤ y ∧ y ≤ m.y1 ∧ m.x0 ≤ x ∧ x ≤ m.x1) →
      ((apply_blended_overlay frame m).getD y [])[x]? = (frame.getD y [])[x]?)
    ∧ (bbox_in_frame frame m →
       ∀ px : RGB, (frame.getD y [])[x]? = some px →
        (m.y0 ≤ y ∧ y ≤ m.y1 ∧ m.x0 ≤ x ∧ x ≤ m.x1) →
        ((apply_blended_overlay frame m).getD y [])[x]? = some
          { r := min (((gget m.overlay y x).a * (gget m.overlay y x).r +
                (255 - (gget m.overlay y x).a) * px.r + 127) / 255) 255
          , g := min (((gget m.overlay y x).a * (gget m.overlay y x).g +
                (255 - (gget m.overlay y x).a) * px.g + 127) / 255) 255
          , b := min (((gget m.overlay y x).a * (gget m.overlay y x).b +
                (255 - (gget m.overlay y x).a) * px.b + 127) / 255) 255 })
    ∧ (¬bbox_in_frame frame m → apply_blended_overlay frame m = frame) := by
  refine ⟨?_, ?_, ?_⟩
  · intro hout
    unfold apply_blended_overlay
    by_cases hin : bbox_in_frame frame m
    · rw [if_pos hin, blend_grid_getElem?]
      cases hpx : (frame.getD y [])[x]? with
      | none => rfl
      | some px => simp [hout]
    · rw [if_neg hin]
  · intro hbox px hpx hin
    unfold apply_blended_overlay
    rw [if_pos hbox, blend_grid_getElem?, hpx]
    have hy : m.y0 + (y - m.y0) = y := by omega
    have hx : m.x0 + (x - m.x0) = x := by omega
    simp only [Option.map_some', if_pos hin, hy, hx]
    rfl
  · intro hbox
    unfold apply_blended_overlay
    rw [if_neg hbox]

/-- Witness for `compositor_blend_correct`: a 1×1 frame blended with a
half-transparent single-pixel mask. -/
theorem compositor_blend_correct_witness :
    ((apply_blended_overlay [[⟨10, 20, 30⟩]]
        ⟨0, 0, 0, 0, [[⟨100, 100, 100, 128⟩]]⟩).getD 0 [])[0]? =
      some { r := min ((128 * 100 + (255 - 128) * 10 + 127) / 255) 255
           , g := min ((128 * 100 + (255 - 128) * 20 + 127) / 255) 255
           , b := min ((128 * 100 + (255 - 128) * 30 + 127) / 255) 255 } := by
  exact (compositor_blend_correct [[⟨10, 20, 30⟩]]
    ⟨0, 0, 0, 0, [[⟨100, 100, 100, 128⟩]]⟩ 0 0).2.1 (by decide) ⟨10, 20, 30⟩
    (by decide) (by decide)

lemma precompute_of_support_empty {ov : List (List RGBA)}
    (h : overlay_support ov = ∅) : precompute_blend_mask ov = none := by
  unfold precompute_blend_mask
  rw [dif_neg]
  rw [Finset.not_nonempty_iff_eq_empty]
  exact h

lemma precompute_of_support_singleton {ov : List (List RGBA)} {p : ℕ × ℕ}
    (h : overlay_support ov = {p}) :
    precompute_blend_mask ov = some ⟨p.1, p.1, p.2, p.2, ov⟩ := by
  unfold precompute_blend_mask
  have hne : (overlay_support ov).Nonempty := by
    rw [h]
    exact ⟨p, Finset.mem_singleton_self p⟩
  rw [dif_pos hne]
  have h1 : (overlay_support ov).image Prod.fst = {p.1} := by
    rw [h, Finset.image_singleton]
  have h2 : (overlay_support ov).image Prod.snd = {p.2} := by
    rw [h, Finset.image_singleton]
  have e1 : ((overlay_support ov).image Prod.fst).min' (hne.image _) = p.1 := by
    apply le_antisymm
    · apply Finset.min'_le
      rw [h1]
      exact Finset.mem_singleton_self _
    · apply Finset.le_min'
      intro b hb
      rw [h1, Finset.mem_singleton] at hb
      omega
  have e2 : ((overlay_support ov).image Prod.fst).max' (hne.image _) = p.1 := by
    apply le_antisymm
    · apply Finset.max'_le
      intro b hb
      rw [h1, Finset.mem_singleton] at hb
      omega
    · apply Finset.le_max'
      rw [h1]
      exact Finset.mem_singleton_self _
  have e3 : ((overlay_support ov).image Prod.snd).min' (hne.image _) = p.2 := by
    apply le_antisymm
    · apply Finset.min'_le
      rw [h2]
      exact Finset.mem_singleton_self _
    · apply Finset.le_min'
      intro b hb
      rw [h2, Finset.mem_singleton] at hb
      omega
  have e4 : ((overlay_support ov).image Prod.snd).max' (hne.image _) = p.2 := by
    apply le_antisymm
    · apply Finset.max'_le
      intro b hb
      rw [h2, Finset.mem_singleton] at hb
      omega
    · apply Finset.le_max'
      rw [h2]
      exact Finset.mem_singleton_self _
  rw [e1, e2, e3, e4]

lemma blend_channel_opaque {o f : ℕ} (ho : o ≤ 255) : blend_channel 255 o f = o := by
  unfold blend_channel
  have : (255 * o + (255 - 255) * f + 127) / 255 = o := by omega
  rw [this]
  omega

/-- Claim C5: a fully transparent overlay yields a null blend mask, so
compositing leaves the frame bit-for-bit unchanged; an overlay with a
single fully opaque pixel (alpha 255 at exactly one in-range position,
0 everywhere else) replaces exactly that pixel of the frame with the
overlay's color and changes no other pixel. -/
theorem blend_alpha_extremes (ov : List (List RGBA))
    (frame : List (List RGB)) (py px : ℕ)
    (hy : py < ov.length) (hx : px < gwidth ov)
    (ha : alphaAt ov py px = 255)
    (hzero : ∀ y, y < ov.length → ∀ x, x < gwidth ov →
      (y, x) ≠ (py, px) → alphaAt ov y x = 0)
    (hr : (gget ov py px).r ≤ 255) (hg : (gget ov py px).g ≤ 255)
    (hb : (gget ov py px).b ≤ 255) :
    (∀ ov2 : List (List RGBA), (∀ y x, alphaAt ov2 y x = 0) →
      precompute_blend_mask ov2 = none ∧
        composite_step frame (precompute_blend_mask ov2) = frame)
    ∧ ∀ y x, ((composite_step frame (precompute_blend_mask ov)).getD y [])[x]? =
        if y = py ∧ x = px then
          ((frame.getD y [])[x]?).map (fun _ =>
            ({ r := (gget ov py px).r, g := (gget ov py px).g
             , b := (gget ov py px).b } : RGB))
        else (frame.getD y [])[x]? := by
  constructor
  · intro ov2 hall
    have hempty : overlay_support ov2 = ∅ := by
      unfold overlay_support
      rw [Finset.filter_eq_empty_iff]
      intro p _
      rw [hall p.1 p.2]
      omega
    have hnone := precompute_of_support_empty hempty
    refine ⟨hnone, ?_⟩
    rw [hnone]
    rfl
  · have hsupp : overlay_support ov = {(py, px)} := by
      apply Finset.ext
      intro p
      constructor
      · intro hp
        unfold overlay_support at hp
        rw [Finset.mem_filter, Finset.mem_product, Finset.mem_range,
          Finset.mem_range] at hp
        rw [Finset.mem_singleton]
        by_contra hne
        have hz := hzero p.1 hp.1.1 p.2 hp.1.2 (by
          intro hcontra
          exact hne (by rw [← hcontra]))
        omega
      · intro hp
        rw [Finset.mem_singleton] at hp
        subst hp
        unfold overlay_support
        rw [Finset.mem_filter, Finset.mem_product, Finset.mem_range,
          Finset.mem_range]
        exact ⟨⟨hy, hx⟩, by rw [ha]; omega⟩
    rw [precompute_of_support_singleton hsupp]
    intro y x
    have hmask : composite_step frame (some ⟨py, py, px, px, ov⟩) =
        apply_blended_overlay frame ⟨py, py, px, px, ov⟩ := rfl
    rw [hmask]
    unfold apply_blended_overlay
    by_cases hbox : bbox_in_frame frame ⟨py, py, px, px, ov⟩
    · rw [if_pos hbox, blend_grid_getElem?]
      by_cases hyx : y = py ∧ x = px
      · obtain ⟨hy1, hx1⟩ := hyx
        have hyy : py + (y - py) = y := by omega
        have hxx : px + (x - px) = x := by omega
        rw [if_pos ⟨hy1, hx1⟩]
        cases hpx2 : (frame.getD y [])[x]? with
        | none => rfl
        | some fpx =>
          simp only [Option.map_some']
          rw [if_pos ⟨by omega, by omega, by omega, by omega⟩]
          rw [hyy, hxx]
          have hgg : gget ov y x = gget ov py px := by rw [hy1, hx1]
          rw [hgg]
          unfold blend_pixel
          have haval : (gget ov py px).a = 255 := ha
          rw [haval, blend_channel_opaque hr, blend_channel_opaque hg,
            blend_channel_opaque hb]
      · rw [if_neg hyx]
        cases hpx2 : (frame.getD y [])[x]? with
        | none => rfl
        | some fpx =>
          simp only [Option.map_some']
          have hnot : ¬(py ≤ y ∧ y ≤ py ∧ px ≤ x ∧ x ≤ px) := by
            intro hcontr
            obtain ⟨a1, a2, a3, a4⟩ := hcontr
            exact hyx ⟨by omega, by omega⟩
          rw [if_neg hnot]
    · rw [if_neg hbox]
      have hnone : (frame.getD py [])[px]? = none := by
        unfold bbox_in_frame at hbox
        push_neg at hbox
        dsimp only at hbox
        by_cases hpyl : py < frame.length
        · obtain ⟨y2, hy2, hlen⟩ := hbox hpyl
          rw [Finset.mem_Icc] at hy2
          have hy2e : y2 = py := by omega
          rw [hy2e] at hlen
          exact List.getElem?_eq_none hlen
        · have hrow : frame[py]? = none :=
            List.getElem?_eq_none (by omega)
          rw [List.getD_eq_getElem?_getD, hrow]
          rfl
      by_cases hyx : y = py ∧ x = px
      · rw [if_pos hyx, hyx.1, hyx.2, hnone]
        rfl
      · rw [if_neg hyx]

/-- Witness for `blend_alpha_extremes`: one opaque red pixel over a
2×2 gray frame replaces exactly the (0,1) pixel. -/
theorem blend_alpha_extremes_witness :
    ((composite_step
        [[⟨9, 9, 9⟩, ⟨9, 9, 9⟩], [⟨9, 9, 9⟩, ⟨9, 9, 9⟩]]
        (precompute_blend_mask
          [[⟨0, 0, 0, 0⟩, ⟨255, 0, 0, 255⟩], [⟨0, 0, 0, 0⟩, ⟨0, 0, 0, 0⟩]])).getD
        0 [])[1]? = some (⟨255, 0, 0⟩ : RGB) := by
  have h := (blend_alpha_extremes
    [[⟨0, 0, 0, 0⟩, ⟨255, 0, 0, 255⟩], [⟨0, 0, 0, 0⟩, ⟨0, 0, 0, 0⟩]]
    [[⟨9, 9, 9⟩, ⟨9, 9, 9⟩], [⟨9, 9, 9⟩, ⟨9, 9, 9⟩]] 0 1
    (by decide) (by decide) (by decide) (by decide)
    (by decide) (by decide) (by decide)).2 0 1
  simpa using h

/-!
OverlayCache invalidation: the `needs_update` test of
`VideoDisplay._display_loop`, with the `_overlay_last_*` fields
initialized to Python `None`.
-/

/-- CAN bus status as compared by the cache (text plus RGB color, the
tuple returned by `_get_canbus_status`). -/
abbrev CanStatus := String × ℕ × ℕ × ℕ

/-- Python `int()` truncation toward zero of a rational speed value. -/
def pyInt (q : ℚ) : ℤ :=
  q.num / (q.den : ℤ)

/-- The overlay cache fields of `VideoDisplay` that drive invalidation:
whether `_overlay_rgba` is present plus the `_overlay_last_*` values. -/
structure OverlayCacheState where
  rgbaPresent : Bool
  lastTimeSec : Option ℕ
  lastSpeed : Option ℚ
  lastRecState : Option Bool
  lastCanState : Option CanStatus
deriving DecidableEq, Repr

/-- The semantic inputs sampled by one pass of the overlay section of
`_display_loop` (wall-clock second, GPS speed, blink state, CAN text). -/
structure OverlayInputs where
  nowSec : ℕ
  speed : Option ℚ
  recState : Bool
  canStatus : CanStatus
deriving DecidableEq, Repr

/-- The `needs_update` disjunction of `_display_loop`, verbatim:
re-render when the cache is empty, the second changed, speed went
none→value, the integer speed changed between two values, the blink
state changed, or the CAN status changed.  (There is no disjunct for a
speed transition value→none.) -/
def needs_update (st : OverlayCacheState) (inp : OverlayInputs) : Bool :=
  !st.rgbaPresent
  || decide (st.lastTimeSec ≠ some inp.nowSec)
  || (st.lastSpeed.isNone && inp.speed.isSome)
  || (match inp.speed, st.lastSpeed with
      | some cs, some ls => decide (pyInt cs ≠ pyInt ls)
      | _, _ => false)
  || decide (st.lastRecState ≠ some inp.recState)
  || decide (st.lastCanState ≠ some inp.canStatus)

/-- One overlay pass of `_display_loop`: when `needs_update` holds the
overlay is re-rendered (on success `_overlay_rgba` becomes non-`None`)
and all `_overlay_last_*` fields are set to the sampled inputs;
otherwise nothing changes.  The returned flag records whether a
re-render happened. -/
def overlay_tick (st : OverlayCacheState) (inp : OverlayInputs) :
    OverlayCacheState × Bool :=
  if needs_update st inp then
    ({ rgbaPresent := true
     , lastTimeSec := some inp.nowSec
     , lastSpeed := inp.speed
     , lastRecState := some inp.recState
     , lastCanState := some inp.canStatus }, true)
  else (st, false)

/-- Modelled from the claim wording: the displayed speed is "unchanged"
only when both readings are absent or both are present with equal
integer parts — so none→value AND value→none both count as changes. -/
def claim_speed_unchanged : Option ℚ → Option ℚ → Prop
  | none, none => True
  | none, some _ => False
  | some _, none => False
  | some l, some c => pyInt c = pyInt l

/-- The speed comparison the code actually performs: a value→none
transition does not count as a change. -/
def code_speed_unchanged : Option ℚ → Option ℚ → Prop
  | none, none => True
  | none, some _ => False
  | some _, none => True
  | some l, some c => pyInt c = pyInt l

instance : ∀ a b, Decidable (claim_speed_unchanged a b) := by
  intro a b
  cases a <;> cases b <;> simp [claim_speed_unchanged] <;> infer_instance

instance : ∀ a b, Decidable (code_speed_unchanged a b) := by
  intro a b
  cases a <;> cases b <;> simp [code_speed_unchanged] <;> infer_instance

/-- Modelled from the claim wording: some semantic input changed since
the last render (or there is no cached render yet), with a speed
transition counting in either direction. -/
def claim_semantic_change (st : OverlayCacheState) (inp : OverlayInputs) : Prop :=
  ¬(st.rgbaPresent = true ∧ st.lastTimeSec = some inp.nowSec
    ∧ st.lastRecState = some inp.recState
    ∧ st.lastCanState = some inp.canStatus
    ∧ claim_speed_unchanged st.lastSpeed inp.speed)

lemma overlay_tick_snd (st : OverlayCacheState) (inp : OverlayInputs) :
    (overlay_tick st inp).2 = needs_update st inp := by
  unfold overlay_tick
  by_cases h : needs_update st inp <;> simp [h]

/-- Counterexample to claim C2: with a warm cache whose last speed was
61 and a tick whose inputs are identical except that the speed reading
became `None` (a value→none transition), the code performs no
re-render, although the claim counts that transition as a semantic
change that must re-render. -/
theorem overlay_value_to_none_not_rerendered :
    (overlay_tick
      { rgbaPresent := true, lastTimeSec := some 5, lastSpeed := some 61
      , lastRecState := some false
      , lastCanState := some ("CAN OK", 0, 200, 0) }
      { nowSec := 5, speed := none, recState := false
      , canStatus := ("CAN OK", 0, 200, 0) }).2 = false
    ∧ claim_semantic_change
      { rgbaPresent := true, lastTimeSec := some 5, lastSpeed := some 61
      , lastRecState := some false
      , lastCanState := some ("CAN OK", 0, 200, 0) }
      { nowSec := 5, speed := none, recState := false
      , canStatus := ("CAN OK", 0, 200, 0) } := by
  constructor
  · decide
  · intro hcontra
    exact hcontra.2.2.2.2

/-- Claim C2 (amended): the overlay is re-rendered iff the cache is
empty or the wall-clock second, the integer speed (none→value counts,
value→none does not), the blink state or the CAN status text changed;
a 61→62 integer speed change re-renders exactly once across two ticks
with the same inputs; a tick whose inputs all match the cache performs
no re-render and leaves the state unchanged. -/
theorem overlay_cache_invalidation (st : OverlayCacheState)
    (inp : OverlayInputs) :
    ((overlay_tick st inp).2 = true ↔
      ¬(st.rgbaPresent = true ∧ st.lastTimeSec = some inp.nowSec
        ∧ st.lastRecState = some inp.recState
        ∧ st.lastCanState = some inp.canStatus
        ∧ code_speed_unchanged st.lastSpeed inp.speed))
    ∧ (st.rgbaPresent = true → st.lastTimeSec = some inp.nowSec →
       st.lastRecState = some inp.recState →
       st.lastCanState = some inp.canStatus →
       ∀ l c : ℚ, st.lastSpeed = some l → inp.speed = some c →
         pyInt c ≠ pyInt l →
         (overlay_tick st inp).2 = true ∧
           (overlay_tick (overlay_tick st inp).1 inp).2 = false)
    ∧ (st.rgbaPresent = true → st.lastTimeSec = some inp.nowSec →
       st.lastSpeed = inp.speed → st.lastRecState = some inp.recState →
       st.lastCanState = some inp.canStatus →
         overlay_tick st inp = (st, false)) := by
  have hiff : ∀ s : OverlayCacheState,
      (needs_update s inp = true ↔
        ¬(s.rgbaPresent = true ∧ s.lastTimeSec = some inp.nowSec
          ∧ s.lastRecState = some inp.recState
          ∧ s.lastCanState = some inp.canStatus
          ∧ code_speed_unchanged s.lastSpeed inp.speed)) := by
    intro s
    unfold needs_update
    cases hrp : s.rgbaPresent <;> cases hls : s.lastSpeed <;>
      cases his : inp.speed <;> simp [code_speed_unchanged] <;> tauto
  refine ⟨by rw [overlay_tick_snd]; exact hiff st, ?_, ?_⟩
  · intro h1 h2 h3 h4 l c hl hc hne
    have hfirst : needs_update st inp = true := by
      rw [hiff st]
      intro hcontra
      rw [hl, hc] at hcontra
      exact hne hcontra.2.2.2.2
    have hstep : (overlay_tick st inp).1 =
        { rgbaPresent := true, lastTimeSec := some inp.nowSec
        , lastSpeed := inp.speed, lastRecState := some inp.recState
        , lastCanState := some inp.canStatus } := by
      unfold overlay_tick
      rw [if_pos hfirst]
    constructor
    · rw [overlay_tick_snd]
      exact hfirst
    · rw [overlay_tick_snd, hstep]
      rw [Bool.eq_false_iff]
      intro habs
      rw [hiff _] at habs
      apply habs
      refine ⟨rfl, rfl, rfl, rfl, ?_⟩
      rw [hc]
      simp [code_speed_unchanged]
  · intro h1 h2 h3 h4 h5
    unfold overlay_tick
    rw [if_neg]
    rw [Bool.not_eq_true, Bool.eq_false_iff]
    intro habs
    rw [hiff st] at habs
    apply habs
    refine ⟨h1, h2, h4, h5, ?_⟩
    rw [h3]
    cases inp.speed <;> simp [code_speed_unchanged]

/-- Witness for `overlay_cache_invalidation`: a warm cache at 61 mph
ticked twice with a 62 mph reading re-renders exactly once. -/
theorem overlay_cache_invalidation_witness :
    (overlay_tick
      { rgbaPresent := true, lastTimeSec := some 7, lastSpeed := some 61
      , lastRecState := some true, lastCanState := some ("CAN OK", 0, 200, 0) }
      { nowSec := 7, speed := some 62, recState := true
      , canStatus := ("CAN OK", 0, 200, 0) }).2 = true
    ∧ (overlay_tick
        (overlay_tick
          { rgbaPresent := true, lastTimeSec := some 7, lastSpeed := some 61
          , lastRecState := some true
          , lastCanState := some ("CAN OK", 0, 200, 0) }
          { nowSec := 7, speed := some 62, recState := true
          , canStatus := ("CAN OK", 0, 200, 0) }).1
        { nowSec := 7, speed := some 62, recState := true
        , canStatus := ("CAN OK", 0, 200, 0) }).2 = false := by
  exact (overlay_cache_invalidation
    { rgbaPresent := true, lastTimeSec := some 7, lastSpeed := some 61
    , lastRecState := some true, lastCanState := some ("CAN OK", 0, 200, 0) }
    { nowSec := 7, speed := some 62, recState := true
    , canStatus := ("CAN OK", 0, 200, 0) }).2.1 rfl rfl rfl rfl 61 62 rfl rfl
    (by decide)

/-!
CameraRecorder: `start_recording` guard and failure rollback
(video_recorder.py).  The encoder construction and
`camera.start_encoder` are external calls modelled by boolean outcomes.
-/

/-- Outcomes of the external calls made by one `start_recording` run. -/
structure RecorderEnv where
  encoderCreateOk : Bool
  startEncoderOk : Bool
  now : ℕ
  timestamp : String
deriving DecidableEq, Repr

/-- The `CameraRecorder` fields involved in starting a recording.
`cameraPresent` is `self.camera is not None` and `encoderPresent` is
`self.encoder is not None`. -/
structure CameraRecorderState where
  recording : Bool
  cameraReady : Bool
  recordingEnabled : Bool
  cameraPresent : Bool
  encoderPresent : Bool
  currentOutputFile : Option String
  currentSegmentStart : Option ℕ
  videoCounter : ℕ
  prefixStr : String
deriving DecidableEq, Repr

/-- Zero-padded 4-digit counter, Python's `f"{n:04d}"`. -/
def pad4 (n : ℕ) : String :=
  if n < 10 then "000" ++ toString n
  else if n < 100 then "00" ++ toString n
  else if n < 1000 then "0" ++ toString n
  else toString n

/-- `_build_output_filename`: prefix, timestamp and the sequence number
(which is incremented), with the `.h264` extension. -/
def build_output_filename (st : CameraRecorderState) (timestamp : String) :
    String × CameraRecorderState :=
  (st.prefixStr ++ "_" ++ timestamp ++ "_" ++ pad4 st.videoCounter ++ ".h264",
   { st with videoCounter := st.videoCounter + 1 })

/-- The `except` handler of `start_recording`: clear the recording
flags and tear the encoder down when both an encoder and a camera are
present. -/
def start_recording_revert (st : CameraRecorderState) : CameraRecorderState :=
  let st1 : CameraRecorderState :=
    { st with
      recording := false
      currentOutputFile := none
      currentSegmentStart := none }
  if st1.encoderPresent && st1.cameraPresent then
    { st1 with encoderPresent := false }
  else st1

/-- `start_recording`: no-op when already recording, camera not ready
or recording disabled; otherwise build the output filename, create the
encoder, start it, and mark recording — reverting via the handler when
either external call fails. -/
def start_recording (env : RecorderEnv) (st : CameraRecorderState) :
    CameraRecorderState :=
  if st.recording || !st.cameraReady || !st.recordingEnabled then st
  else
    let fst1 := build_output_filename st env.timestamp
    let st2 := { fst1.2 with currentOutputFile := some fst1.1 }
    if !env.encoderCreateOk then start_recording_revert st2
    else
      let st3 := { st2 with encoderPresent := true }
      if !env.startEncoderOk then start_recording_revert st3
      else
        { st3 with recording := true, currentSegmentStart := some env.now }

/-- Claim C8: `start_recording` leaves the state untouched when already
recording, camera not ready, or recording disabled; and when the
encoder construction or `start_encoder` fails (with a camera present),
it reverts cleanly: `recording` stays false, the current output file
and segment start are cleared, and the encoder handle is back to none. -/
theorem start_recording_guard_and_revert (env : RecorderEnv)
    (st : CameraRecorderState) :
    ((st.recording = true ∨ st.cameraReady = false ∨
        st.recordingEnabled = false) →
      start_recording env st = st)
    ∧ (st.recording = false → st.cameraReady = true →
       st.recordingEnabled = true → st.cameraPresent = true →
       (env.encoderCreateOk = false ∨ env.startEncoderOk = false) →
       (start_recording env st).recording = false
       ∧ (start_recording env st).currentOutputFile = none
       ∧ (start_recording env st).currentSegmentStart = none
       ∧ (start_recording env st).encoderPresent = false) := by
  constructor
  · intro h
    unfold start_recording
    rcases h with h | h | h <;> simp [h]
  · intro h1 h2 h3 h4 hfail
    unfold start_recording start_recording_revert build_output_filename
    rcases hfail with hf | hf
    · by_cases he : st.encoderPresent <;>
        simp [h1, h2, h3, h4, hf, he]
    · by_cases hc : env.encoderCreateOk
      · simp [h1, h2, h3, h4, hf, hc]
      · by_cases he : st.encoderPresent <;>
          simp [h1, h2, h3, h4, hc, he]

/-- Witness for `start_recording_guard_and_revert`: a ready idle
recorder whose `start_encoder` call fails is fully reverted. -/
theorem start_recording_guard_and_revert_witness :
    (start_recording
      { encoderCreateOk := true, startEncoderOk := false, now := 100
      , timestamp := "20260101_120000" }
      { recording := false, cameraReady := true, recordingEnabled := true
      , cameraPresent := true, encoderPresent := false
      , currentOutputFile := none, currentSegmentStart := none
      , videoCounter := 7, prefixStr := "front" }).encoderPresent = false := by
  exact ((start_recording_guard_and_revert
    { encoderCreateOk := true, startEncoderOk := false, now := 100
    , timestamp := "20260101_120000" }
    { recording := false, cameraReady := true, recordingEnabled := true
    , cameraPresent := true, encoderPresent := false
    , currentOutputFile := none, currentSegmentStart := none
    , videoCounter := 7, prefixStr := "front" }).2 rfl rfl rfl rfl
    (Or.inr rfl)).2.2.2

/-!
DrmKmsDisplay: `start()` with `_choose_connector_and_mode`,
`_create_dumb_buffer`, `_set_crtc` and `_cleanup`
(video_display_drmkms.py).  Each ioctl / libdrm call is modelled by a
boolean outcome; a Python exception is an `Except.error` carrying the
fields as they stood when the call raised.
-/

/-- A DRM mode (the fields the backend reads). -/
structure Mode where
  hdisplay : ℕ
  vdisplay : ℕ
  vrefresh : ℕ
deriving DecidableEq, Repr

/-- The result of a successful `_choose_connector_and_mode` scan:
connector, resolved CRTC, preferred mode, and the previously active
CRTC mode captured for fallback (when `mode_valid`). -/
structure ConnectorChoice where
  connectorId : ℕ
  crtcId : ℕ
  mode : Mode
  fallbackMode : Option Mode
deriving DecidableEq, Repr

/-- Outcomes of the external DRM calls made by one `start()` run. -/
structure DrmEnv where
  openOk : Bool
  choice : Option ConnectorChoice
  createDumbOk : Bool
  addFB2Ok : Bool
  mapOk : Bool
  setCrtcPrimaryOk : Bool
  setCrtcFallbackOk : Bool
deriving DecidableEq, Repr

/-- The resource-holding fields of `DrmKmsDisplay`. -/
structure DrmState where
  fd : Option ℕ
  connectorId : Option ℕ
  crtcId : Option ℕ
  mode : Option Mode
  fallbackMode : Option Mode
  fbId : Option ℕ
  handle : Option ℕ
  mmapPresent : Bool
  width : Option ℕ
  height : Option ℕ
  running : Bool
deriving DecidableEq, Repr

/-- The constructor's all-`None` initial state. -/
def initial_drm_state : DrmState :=
  { fd := none, connectorId := none, crtcId := none, mode := none
  , fallbackMode := none, fbId := none, handle := none
  , mmapPresent := false, width := none, height := none, running := false }

/-- `_cleanup`: close the mapping, remove the framebuffer object,
destroy the dumb buffer, close the device — each guarded and
idempotent, always ending with the fields cleared. -/
def drm_cleanup (st : DrmState) : DrmState :=
  { st with mmapPresent := false, fbId := none, handle := none, fd := none }

/-- `_open_device`: `os.open` of the card node. -/
def drm_open_device (env : DrmEnv) (st : DrmState) : Except DrmState DrmState :=
  if env.openOk then .ok { st with fd := some 3 } else .error st

/-- `_choose_connector_and_mode`: pick the first connected connector
with a mode and a CRTC, record the fallback CRTC mode, and set the
geometry from the preferred mode; raise when nothing qualifies. -/
def drm_choose_connector (env : DrmEnv) (st : DrmState) :
    Except DrmState DrmState :=
  match env.choice with
  | some c => .ok { st with
      connectorId := some c.connectorId
      crtcId := some c.crtcId
      mode := some c.mode
      fallbackMode := c.fallbackMode
      width := some c.mode.hdisplay
      height := some c.mode.vdisplay }
  | none => .error st

/-- `_create_dumb_buffer`: CREATE_DUMB ioctl, `drmModeAddFB2`, then
MAP_DUMB plus `mmap`; a failure raises with whatever had already been
allocated. -/
def drm_create_dumb_buffer (env : DrmEnv) (st : DrmState) :
    Except DrmState DrmState :=
  if !env.createDumbOk then .error st
  else
    let st1 := { st with handle := some 1 }
    if !env.addFB2Ok then .error st1
    else
      let st2 := { st1 with fbId := some 1 }
      if !env.mapOk then .error st2
      else .ok { st2 with mmapPresent := true }

/-- `_set_crtc`: try the preferred mode; on failure retry with the
saved fallback mode when one was captured, updating the reported
geometry on success; otherwise raise. -/
def drm_set_crtc (env : DrmEnv) (st : DrmState) : Except DrmState DrmState :=
  if env.setCrtcPrimaryOk then .ok st
  else
    match st.fallbackMode with
    | some m =>
      if env.setCrtcFallbackOk then
        .ok { st with width := some m.hdisplay, height := some m.vdisplay }
      else .error st
    | none => .error st

/-- `start()`: run the four stages; any raise lands in the `except`
arm which calls `_cleanup` and returns `False`. -/
def drm_start (env : DrmEnv) : Bool × DrmState :=
  match drm_open_device env initial_drm_state with
  | .error st => (false, drm_cleanup st)
  | .ok st1 =>
    match drm_choose_connector env st1 with
    | .error st => (false, drm_cleanup st)
    | .ok st2 =>
      match drm_create_dumb_buffer env st2 with
      | .error st => (false, drm_cleanup st)
      | .ok st3 =>
        match drm_set_crtc env st3 with
        | .error st => (false, drm_cleanup st)
        | .ok st4 => (true, { st4 with running := true })

/-- Claim C7: when the preferred set-CRTC fails but a previously active
CRTC mode was captured and the retry succeeds, `start()` succeeds and
reports the fallback mode's dimensions; and on every failure path of
`start()` the cleanup leaves the dumb-buffer handle, the framebuffer
object, the memory mapping and the device fd all released. -/
theorem drm_start_fallback_and_cleanup (env : DrmEnv) :
    (∀ (c : ConnectorChoice) (m : Mode), env.openOk = true →
      env.choice = some c → c.fallbackMode = some m →
      env.createDumbOk = true → env.addFB2Ok = true → env.mapOk = true →
      env.setCrtcPrimaryOk = false → env.setCrtcFallbackOk = true →
      (drm_start env).1 = true
      ∧ (drm_start env).2.width = some m.hdisplay
      ∧ (drm_start env).2.height = some m.vdisplay)
    ∧ ((drm_start env).1 = false →
      (drm_start env).2.fd = none ∧ (drm_start env).2.handle = none
      ∧ (drm_start env).2.fbId = none
      ∧ (drm_start env).2.mmapPresent = false) := by
  constructor
  · intro c m hopen hchoice hfb hcreate haddfb hmap hprim hfall
    unfold drm_start drm_open_device drm_choose_connector
      drm_create_dumb_buffer drm_set_crtc
    simp [hopen, hchoice, hfb, hcreate, haddfb, hmap, hprim, hfall]
  · intro hfail
    unfold drm_start drm_open_device drm_choose_connector
      drm_create_dumb_buffer drm_set_crtc at hfail ⊢
    by_cases hopen : env.openOk
    · rcases hchoice : env.choice with _ | c
      · simp [hopen, hchoice, drm_cleanup]
      · by_cases hcreate : env.createDumbOk
        · by_cases haddfb : env.addFB2Ok
          · by_cases hmap : env.mapOk
            · by_cases hprim : env.setCrtcPrimaryOk
              · simp [hopen, hchoice, hcreate, haddfb, hmap, hprim] at hfail
              · rcases hfb : c.fallbackMode with _ | fbm
                · simp [hopen, hchoice, hcreate, haddfb, hmap, hprim, hfb,
                    drm_cleanup]
                · by_cases hfall : env.setCrtcFallbackOk
                  · simp [hopen, hchoice, hcreate, haddfb, hmap, hprim, hfb,
                      hfall] at hfail
                  · simp [hopen, hchoice, hcreate, haddfb, hmap, hprim, hfb,
                      hfall, drm_cleanup]
            · simp [hopen, hchoice, hcreate, haddfb, hmap, drm_cleanup]
          · simp [hopen, hchoice, hcreate, haddfb, drm_cleanup]
        · simp [hopen, hchoice, hcreate, drm_cleanup]
    · simp [hopen, drm_cleanup]

/-- Witness for `drm_start_fallback_and_cleanup`: primary mode-set
fails, the captured 1280×720 mode is retried and reported. -/
theorem drm_start_fallback_and_cleanup_witness :
    (drm_start
      { openOk := true
      , choice := some
          { connectorId := 32, crtcId := 64
          , mode := { hdisplay := 1920, vdisplay := 1080, vrefresh := 60 }
          , fallbackMode := some
              { hdisplay := 1280, vdisplay := 720, vrefresh := 60 } }
      , createDumbOk := true, addFB2Ok := true, mapOk := true
      , setCrtcPrimaryOk := false, setCrtcFallbackOk := true }).2.width =
      some 1280 := by
  exact ((drm_start_fallback_and_cleanup
    { openOk := true
    , choice := some
        { connectorId := 32, crtcId := 64
        , mode := { hdisplay := 1920, vdisplay := 1080, vrefresh := 60 }
        , fallbackMode := some
            { hdisplay := 1280, vdisplay := 720, vrefresh := 60 } }
    , createDumbOk := true, addFB2Ok := true, mapOk := true
    , setCrtcPrimaryOk := false, setCrtcFallbackOk := true }).1
    { connectorId := 32, crtcId := 64
    , mode := { hdisplay := 1920, vdisplay := 1080, vrefresh := 60 }
    , fallbackMode := some { hdisplay := 1280, vdisplay := 720, vrefresh := 60 } }
    { hdisplay := 1280, vdisplay := 720, vrefresh := 60 }
    rfl rfl rfl rfl rfl rfl rfl rfl).2.1

/-!
RenderLoop output: one `_display_loop` pass of each backend reduced to
the data it writes.  The fbdev loop substitutes an all-black frame when
no frame has arrived and always writes; the DRM loop skips the write
entirely (`time.sleep(0.01); continue`).  Both pack into a preallocated
height×width buffer whose unwritten entries keep their initial zeros;
`_write_frame`/`_blit_frame` resize first whenever the frame shape
differs from the display shape, so the buffer is fully written.
-/

/-- `np.zeros((height, width, 3), dtype=np.uint8)`. -/
def black_frame (h w : ℕ) : List (List RGB) :=
  List.replicate h (List.replicate w ⟨0, 0, 0⟩)

/-- `_ensure_rgb`: reverse the channel order when the input is BGR. -/
def ensure_rgb (isBGR : Bool) (frame : List (List RGB)) : List (List RGB) :=
  if isBGR then frame.map (fun row => row.map (fun p => ⟨p.b, p.g, p.r⟩))
  else frame

/-- `_resize_nn`: nearest-neighbour resize.  The float index scaling
`(arange(out) * (src / out)).astype(int32)` is modelled with exact
integer floor division, and the same clip to the source range. -/
def resize_nn (frame : List (List RGB)) (out_w out_h : ℕ) : List (List RGB) :=
  if frame.length = out_h ∧ gwidth frame = out_w then frame
  else
    (List.range out_h).map (fun i =>
      (List.range out_w).map (fun j =>
        gget frame (min (i * frame.length / out_h) (frame.length - 1))
          (min (j * gwidth frame / out_w) (gwidth frame - 1))))

/-- The preallocated `(height, width)` uint16 buffer after
`pack_rgb565_jit(frame, buffer)`: the jit loop writes words for the
frame's extent, other entries keep their initial zeros. -/
def pack_buffer_u16 (h w : ℕ) (frame : List (List RGB)) : List (List ℕ) :=
  (List.range h).map (fun y => (List.range w).map (fun x =>
    if y < frame.length ∧ x < (frame.getD y []).length then
      pack_rgb565_word (gget frame y x).r (gget frame y x).g (gget frame y x).b
    else 0))

/-- Same for the `(height, width)` uint32 buffer of the DRM path. -/
def pack_buffer_u32 (h w : ℕ) (frame : List (List RGB)) : List (List ℕ) :=
  (List.range h).map (fun y => (List.range w).map (fun x =>
    if y < frame.length ∧ x < (frame.getD y []).length then
      pack_xrgb8888_word (gget frame y x).r (gget frame y x).g (gget frame y x).b
    else 0))

/-- `_write_frame`: resize on shape mismatch, pack RGB565 into the
preallocated buffer, serialize little-endian. -/
def write_frame (h w : ℕ) (frame : List (List RGB)) : List ℕ :=
  let f2 := if frame.length = h ∧ gwidth frame = w then frame
            else resize_nn frame w h
  (pack_buffer_u16 h w f2).flatten.flatMap le16_bytes

/-- `_blit_frame` with the contiguous pitch (`pitch = width*4`):
resize on shape mismatch, pack XRGB8888, serialize little-endian. -/
def blit_frame (h w : ℕ) (frame : List (List RGB)) : List ℕ :=
  let f2 := if frame.length = h ∧ gwidth frame = w then frame
            else resize_nn frame w h
  (pack_buffer_u32 h w f2).flatten.flatMap le32_bytes

/-- One `VideoDisplay._display_loop` pass: black frame when the slot is
empty, `_ensure_rgb`, software transform unless applied in hardware,
composite the cached mask, write. -/
def display_tick_fb (h w : ℕ) (isBGR : Bool) (slot : Option (List (List RGB)))
    (hwT : Bool) (rotation : ℕ) (hf vf mir : Bool)
    (mask : Option BlendMask) : List ℕ :=
  let f0 := match slot with
            | none => black_frame h w
            | some f => f
  let f1 := ensure_rgb isBGR f0
  let f2 := if hwT then f1 else apply_transform f1 rotation hf vf mir
  write_frame h w (composite_step f2 mask)

/-- One `DrmKmsDisplay._display_loop` pass: with an empty slot the loop
sleeps and continues without writing anything. -/
def display_tick_drm (h w : ℕ) (isBGR : Bool) (slot : Option (List (List RGB)))
    (hwT : Bool) (rotation : ℕ) (hf vf mir : Bool)
    (mask : Option BlendMask) : Option (List ℕ) :=
  match slot with
  | none => none
  | some f =>
    let f1 := ensure_rgb isBGR f
    let f2 := if hwT then f1 else apply_transform f1 rotation hf vf mir
    some (blit_frame h w (composite_step f2 mask))

lemma length_flatMap_const {α β} (f : α → List β) (k : ℕ)
    (hf : ∀ x, (f x).length = k) :
    ∀ l : List α, (l.flatMap f).length = l.length * k
  | [] => by simp
  | x :: xs => by
    simp [List.flatMap_cons, hf x, length_flatMap_const f k hf xs]
    ring

lemma sum_map_length_const {α} (w : ℕ) :
    ∀ rows : List (List α), (∀ r ∈ rows, r.length = w) →
      (rows.map List.length).sum = rows.length * w
  | [], _ => by simp
  | r :: rs, h => by
    rw [List.map_cons, List.sum_cons, h r (by simp),
      sum_map_length_const w rs (fun q hq => h q (by simp [hq]))]
    simp [List.length_cons]
    ring

lemma pack_buffer_u16_shape (h w : ℕ) (frame : List (List RGB)) :
    (pack_buffer_u16 h w frame).length = h
    ∧ ∀ r ∈ pack_buffer_u16 h w frame, r.length = w := by
  constructor
  · simp [pack_buffer_u16]
  · intro r hr
    unfold pack_buffer_u16 at hr
    rw [List.mem_map] at hr
    obtain ⟨y, _, hy⟩ := hr
    simp [← hy]

lemma pack_buffer_u32_shape (h w : ℕ) (frame : List (List RGB)) :
    (pack_buffer_u32 h w frame).length = h
    ∧ ∀ r ∈ pack_buffer_u32 h w frame, r.length = w := by
  constructor
  · simp [pack_buffer_u32]
  · intro r hr
    unfold pack_buffer_u32 at hr
    rw [List.mem_map] at hr
    obtain ⟨y, _, hy⟩ := hr
    simp [← hy]

lemma write_frame_length (h w : ℕ) (frame : List (List RGB)) :
    (write_frame h w frame).length = w * h * 2 := by
  unfold write_frame
  rw [length_flatMap_const le16_bytes 2 (fun x => rfl)]
  rw [List.length_flatten, sum_map_length_const w _
    (pack_buffer_u16_shape h w _).2, (pack_buffer_u16_shape h w _).1]
  ring

lemma blit_frame_length (h w : ℕ) (frame : List (List RGB)) :
    (blit_frame h w frame).length = w * h * 4 := by
  unfold blit_frame
  rw [length_flatMap_const le32_bytes 4 (fun x => rfl)]
  rw [List.length_flatten, sum_map_length_const w _
    (pack_buffer_u32_shape h w _).2, (pack_buffer_u32_shape h w _).1]
  ring

/-- Every pixel of the grid is black. -/
def all_black (g : List (List RGB)) : Prop :=
  ∀ row ∈ g, ∀ p ∈ row, p = ⟨0, 0, 0⟩

lemma all_black_gget {g : List (List RGB)} (hb : all_black g) (y x : ℕ) :
    gget g y x = ⟨0, 0, 0⟩ := by
  unfold gget
  rw [List.getD_eq_getElem?_getD g y []]
  rcases hrow : g[y]? with _ | row
  · rfl
  · have hrmem : row ∈ g := List.getElem?_mem hrow
    simp only [Option.getD_some]
    rw [List.getD_eq_getElem?_getD row x]
    rcases hpx : row[x]? with _ | p
    · rfl
    · simp only [Option.getD_some]
      exact hb row hrmem p (List.getElem?_mem hpx)

lemma all_black_black_frame (h w : ℕ) : all_black (black_frame h w) := by
  intro row hrow p hp
  rw [black_frame, List.mem_replicate] at hrow
  rw [hrow.2, List.mem_replicate] at hp
  exact hp.2

lemma all_black_ensure_rgb (isBGR : Bool) {g : List (List RGB)}
    (hb : all_black g) : all_black (ensure_rgb isBGR g) := by
  unfold ensure_rgb
  cases isBGR
  · simpa using hb
  · simp only [if_pos]
    intro row hrow p hp
    rw [List.mem_map] at hrow
    obtain ⟨row0, hrow0, hmap⟩ := hrow
    rw [← hmap, List.mem_map] at hp
    obtain ⟨p0, hp0, hpm⟩ := hp
    rw [hb row0 hrow0 p0 hp0] at hpm
    exact hpm.symm

lemma all_black_fliplr {g : List (List RGB)} (hb : all_black g) :
    all_black (fliplr g) := by
  intro row hrow p hp
  rw [fliplr, List.mem_map] at hrow
  obtain ⟨row0, hrow0, hmap⟩ := hrow
  rw [← hmap, List.mem_reverse] at hp
  exact hb row0 hrow0 p hp

lemma all_black_flipud {g : List (List RGB)} (hb : all_black g) :
    all_black (flipud g) := by
  intro row hrow p hp
  rw [flipud, List.mem_reverse] at hrow
  exact hb row hrow p hp

lemma all_black_rot90 {g : List (List RGB)} (hb : all_black g) :
    all_black (rot90 g) := by
  intro row hrow p hp
  rw [rot90, List.mem_map] at hrow
  obtain ⟨i, _, hmap⟩ := hrow
  rw [← hmap, List.mem_map] at hp
  obtain ⟨j, _, hpm⟩ := hp
  rw [← hpm]
  exact all_black_gget hb j (gwidth g - 1 - i)

lemma all_black_rot90_iter {g : List (List RGB)} (hb : all_black g) :
    ∀ n, all_black (rot90^[n] g) := by
  intro n
  induction n generalizing g with
  | zero => simpa using hb
  | succ n ih =>
    rw [Function.iterate_succ_apply]
    exact ih (all_black_rot90 hb)

lemma all_black_bif_fliplr {g : List (List RGB)} (hb : all_black g) :
    ∀ b : Bool, all_black (if b then fliplr g else g)
  | false => hb
  | true => all_black_fliplr hb

lemma all_black_bif_flipud {g : List (List RGB)} (hb : all_black g) :
    ∀ b : Bool, all_black (if b then flipud g else g)
  | false => hb
  | true => all_black_flipud hb

lemma all_black_apply_transform {g : List (List RGB)} (hb : all_black g)
    (rotation : ℕ) (hf vf mir : Bool) :
    all_black (apply_transform g rotation hf vf mir) := by
  have h1 : all_black (if rotation % 360 ≠ 0 then
      rot90^[rotation % 360 / 90 % 4] g else g) := by
    split
    · exact all_black_rot90_iter hb _
    · exact hb
  simp only [apply_transform]
  exact all_black_bif_fliplr
    (all_black_bif_flipud (all_black_bif_fliplr h1 hf) vf) mir

lemma all_black_resize_nn {g : List (List RGB)} (hb : all_black g)
    (out_w out_h : ℕ) : all_black (resize_nn g out_w out_h) := by
  unfold resize_nn
  split
  · exact hb
  · intro row hrow p hp
    rw [List.mem_map] at hrow
    obtain ⟨i, _, hmap⟩ := hrow
    rw [← hmap, List.mem_map] at hp
    obtain ⟨j, _, hpm⟩ := hp
    rw [← hpm]
    exact all_black_gget hb _ _

lemma write_frame_black {g : List (List RGB)} (hb : all_black g) (h w : ℕ) :
    ∀ byte ∈ write_frame h w g, byte = 0 := by
  intro byte hbyte
  unfold write_frame at hbyte
  rw [List.mem_flatMap] at hbyte
  obtain ⟨wd, hwd, hbw⟩ := hbyte
  rw [List.mem_flatten] at hwd
  obtain ⟨row, hrow, hwrow⟩ := hwd
  have hwz : wd = 0 := by
    unfold pack_buffer_u16 at hrow
    rw [List.mem_map] at hrow
    obtain ⟨y, _, hmap⟩ := hrow
    rw [← hmap, List.mem_map] at hwrow
    obtain ⟨x, _, hxm⟩ := hwrow
    rw [← hxm]
    split
    · split
      · rw [all_black_gget hb y x]
        rfl
      · rfl
    · split
      · rw [all_black_gget (all_black_resize_nn hb w h) y x]
        rfl
      · rfl
  rw [hwz] at hbw
  have he : le16_bytes 0 = [0, 0] := rfl
  rw [he] at hbw
  simp only [List.mem_cons, List.not_mem_nil, or_false, or_self] at hbw
  exact hbw

/-- Claim C6 (amended): before any `update()` — an empty frame slot —
a framebuffer render tick writes an all-black packed frame of byte
length width×height×2, while the DRM/KMS tick performs no write at
all; once a frame is present, a framebuffer tick writes width×height×2
bytes and a DRM tick writes width×height×4 bytes. -/
theorem render_tick_output (h w : ℕ) (isBGR hwT : Bool) (rotation : ℕ)
    (hf vf mir : Bool) :
    ((display_tick_fb h w isBGR none hwT rotation hf vf mir none).length =
        w * h * 2
      ∧ ∀ byte ∈ display_tick_fb h w isBGR none hwT rotation hf vf mir none,
          byte = 0)
    ∧ (∀ (frame : List (List RGB)) (mask : Option BlendMask),
        (display_tick_fb h w isBGR (some frame) hwT rotation hf vf mir
          mask).length = w * h * 2)
    ∧ display_tick_drm h w isBGR none hwT rotation hf vf mir none = none
    ∧ (∀ (frame : List (List RGB)) (mask : Option BlendMask) (out : List ℕ),
        display_tick_drm h w isBGR (some frame) hwT rotation hf vf mir mask =
          some out → out.length = w * h * 4) := by
  refine ⟨⟨write_frame_length h w _, ?_⟩, ?_, rfl, ?_⟩
  · intro byte hbyte
    apply write_frame_black _ h w byte hbyte
    have hb0 := all_black_black_frame h w
    have hb1 := all_black_ensure_rgb isBGR hb0
    have hb2 : all_black (if hwT then ensure_rgb isBGR (black_frame h w)
        else apply_transform (ensure_rgb isBGR (black_frame h w))
          rotation hf vf mir) := by
      split
      · exact hb1
      · exact all_black_apply_transform hb1 rotation hf vf mir
    simpa [composite_step] using hb2
  · intro frame mask
    exact write_frame_length h w _
  · intro frame mask out hout
    have : out = blit_frame h w (composite_step
        (if hwT then ensure_rgb isBGR frame
         else apply_transform (ensure_rgb isBGR frame) rotation hf vf mir)
        mask) := by
      unfold display_tick_drm at hout
      simp at hout
      exact hout.symm
    rw [this]
    exact blit_frame_length h w _

/-- Witness for `render_tick_output`: a post-update DRM tick on a 2×2
display writes 16 bytes. -/
theorem render_tick_output_witness :
    ∃ out : List ℕ,
      display_tick_drm 2 2 false (some [[⟨1, 2, 3⟩, ⟨4, 5, 6⟩],
        [⟨7, 8, 9⟩, ⟨10, 11, 12⟩]]) true 0 false false false none =
        some out ∧ out.length = 2 * 2 * 4 := by
  refine ⟨_, rfl, ?_⟩
  exact (render_tick_output 2 2 false true 0 false false false).2.2.2
    [[⟨1, 2, 3⟩, ⟨4, 5, 6⟩], [⟨7, 8, 9⟩, ⟨10, 11, 12⟩]] none _ rfl

/-- Counterexample to claim C6 as stated: on the DRM/KMS backend a
render tick before any `update()` writes nothing at all — there is no
all-black width×height×4 write. -/
theorem drm_tick_before_update_writes_nothing :
    display_tick_drm 4 4 false none false 0 false false false none = none := by
  rfl

/-!
DiskGuardian: `_check_disk_space` and `_cleanup_old_files`
(video_recorder.py).  `shutil.disk_usage` is modelled by a filesystem
snapshot in which deleting an archive file frees its size; all byte
counts are exact rationals.
-/

/-- One entry of the archive directory listing (name, modification
time, size, and whether `os.path.isfile` holds). -/
structure ArchFile where
  name : String
  mtime : ℕ
  size : ℕ
  isfile : Bool
deriving DecidableEq, Repr

/-- `DiskPolicy`: `disk_high_water_mark` fraction and
`keep_minimum_gb`. -/
structure DiskPolicy where
  highWaterMark : ℚ
  keepMinimumGB : ℚ
deriving DecidableEq, Repr

/-- The video filesystem: capacity, bytes used outside the archive
directory, the archive entries and the "current" directory entries. -/
structure VideoFs where
  total : ℚ
  usedOther : ℚ
  archive : List ArchFile
  currentDir : List ArchFile
deriving DecidableEq, Repr

/-- Total size of a list of archive files. -/
def archiveBytes (files : List ArchFile) : ℚ :=
  (files.map (fun f => (f.size : ℚ))).sum

/-- `shutil.disk_usage(...).used` for the snapshot. -/
def usedBytes (fs : VideoFs) : ℚ :=
  fs.usedOther + archiveBytes fs.archive

/-- `1024 ** 3` bytes per GB. -/
def gbBytes : ℚ := 1024 ^ 3

/-- The hysteresis stop test of `_cleanup_old_files`, evaluated on a
fresh usage sample: `usage_percent <= (high_water_mark - 0.05) and
free_gb >= keep_minimum_gb`. -/
def cleanup_done (pol : DiskPolicy) (total used : ℚ) : Prop :=
  used / total ≤ pol.highWaterMark - 5 / 100
  ∧ (total - used) / gbBytes ≥ pol.keepMinimumGB

instance cleanup_done_dec (pol : DiskPolicy) (total used : ℚ) :
    Decidable (cleanup_done pol total used) :=
  inferInstanceAs (Decidable (_ ∧ _))

/-- Python's ascending sort key on the `(mtime, filepath)` tuples. -/
def file_le (a b : ArchFile) : Bool :=
  decide (a.mtime < b.mtime)
  || (decide (a.mtime = b.mtime) && decide (a.name ≤ b.name))

/-- The candidate list of `_cleanup_old_files`: regular files matching
the `.h264` recording extension, sorted ascending by
`(mtime, filepath)`. -/
def cleanup_candidates (fs : VideoFs) : List ArchFile :=
  (fs.archive.filter (fun f => f.isfile && f.name.endsWith ".h264")).mergeSort
    file_le

/-- The deletion loop: before each candidate re-sample disk usage
(`used0` minus the bytes freed so far) and stop when the hysteresis
condition holds; otherwise delete the file and continue.  Returns the
deleted files in deletion order. -/
def cleanup_loop (pol : DiskPolicy) (total used0 : ℚ) :
    ℚ → List ArchFile → List ArchFile
  | _, [] => []
  | freed, f :: rest =>
    if cleanup_done pol total (used0 - freed) then []
    else f :: cleanup_loop pol total used0 (freed + (f.size : ℚ)) rest

/-- `_cleanup_old_files`: list the archive directory, filter, sort,
delete oldest-first with re-checks; the "current" directory is never
touched.  Returns the deleted files and the resulting filesystem. -/
def cleanup_old_files (pol : DiskPolicy) (fs : VideoFs) :
    List ArchFile × VideoFs :=
  let deleted := cleanup_loop pol fs.total (usedBytes fs) 0
    (cleanup_candidates fs)
  let remaining := fs.archive.filter (fun f => decide (f ∉ deleted))
  (deleted, { fs with archive := remaining })

/-- `_check_disk_space`: run cleanup exactly when
`usage_percent > high_water_mark or free_gb < keep_minimum_gb`. -/
def check_disk_space (pol : DiskPolicy) (fs : VideoFs) :
    List ArchFile × VideoFs :=
  if usedBytes fs / fs.total > pol.highWaterMark
      ∨ (fs.total - usedBytes fs) / gbBytes < pol.keepMinimumGB then
    cleanup_old_files pol fs
  else ([], fs)

lemma file_le_trans : ∀ a b c : ArchFile, file_le a b = true →
    file_le b c = true → file_le a c = true := by
  intro a b c hab hbc
  unfold file_le at *
  simp only [Bool.or_eq_true, Bool.and_eq_true, decide_eq_true_eq] at *
  rcases hab with h1 | ⟨h1, h1n⟩ <;> rcases hbc with h2 | ⟨h2, h2n⟩
  · exact Or.inl (by omega)
  · exact Or.inl (by omega)
  · exact Or.inl (by omega)
  · exact Or.inr ⟨by omega, le_trans h1n h2n⟩

lemma file_le_total : ∀ a b : ArchFile, (file_le a b || file_le b a) = true := by
  intro a b
  unfold file_le
  simp only [Bool.or_eq_true, Bool.and_eq_true, decide_eq_true_eq]
  rcases Nat.lt_trichotomy a.mtime b.mtime with h | h | h
  · tauto
  · rcases le_total a.name b.name with hn | hn
    · exact Or.inl (Or.inr ⟨h, hn⟩)
    · exact Or.inr (Or.inr ⟨h.symm, hn⟩)
  · tauto

lemma cleanup_loop_spec (pol : DiskPolicy) (total used0 : ℚ) :
    ∀ (l : List ArchFile) (freed : ℚ),
      ∃ k, k ≤ l.length
        ∧ cleanup_loop pol total used0 freed l = l.take k
        ∧ (∀ j < k, ¬cleanup_done pol total
            (used0 - (freed + archiveBytes (l.take j))))
        ∧ (k < l.length → cleanup_done pol total
            (used0 - (freed + archiveBytes (l.take k))))
  | [], freed => by
    refine ⟨0, le_refl 0, rfl, ?_, ?_⟩
    · intro j hj
      omega
    · intro h
      simp at h
  | f :: rest, freed => by
    by_cases hdone : cleanup_done pol total (used0 - freed)
    · refine ⟨0, by simp, ?_, ?_, ?_⟩
      · unfold cleanup_loop
        rw [if_pos hdone]
        rfl
      · intro j hj
        omega
      · intro h
        have he : used0 - (freed + archiveBytes ((f :: rest).take 0)) =
            used0 - freed := by
          simp [archiveBytes]
        rw [he]
        exact hdone
    · obtain ⟨k, hk, heq, hall, hstop⟩ :=
        cleanup_loop_spec pol total used0 rest (freed + (f.size : ℚ))
      refine ⟨k + 1, by simp; omega, ?_, ?_, ?_⟩
      · unfold cleanup_loop
        rw [if_neg hdone, heq, List.take_succ_cons]
      · intro j hj
        cases j with
        | zero =>
          have he : used0 - (freed + archiveBytes ((f :: rest).take 0)) =
              used0 - freed := by
            simp [archiveBytes]
          rw [he]
          exact hdone
        | succ j =>
          have he : used0 - (freed + archiveBytes ((f :: rest).take (j + 1))) =
              used0 - (freed + (f.size : ℚ) + archiveBytes (rest.take j)) := by
            rw [List.take_succ_cons]
            unfold archiveBytes
            rw [List.map_cons, List.sum_cons]
            ring
          rw [he]
          exact hall j (by omega)
      · intro hlen
        have he : used0 - (freed + archiveBytes ((f :: rest).take (k + 1))) =
            used0 - (freed + (f.size : ℚ) + archiveBytes (rest.take k)) := by
          rw [List.take_succ_cons]
          unfold archiveBytes
          rw [List.map_cons, List.sum_cons]
          ring
        rw [he]
        exact hstop (by simp at hlen; omega)

/-- Claim C1: the cleanup pass considers only regular `.h264` files of
the archive directory and never touches the "current" directory; the
deleted files are an oldest-first (ascending-mtime) prefix of the
sorted candidates; before each deletion the disk usage is re-sampled,
every performed deletion happened while the hysteresis condition was
still false, and the loop stops exactly when
`usage <= high_water_mark - 0.05 AND free_gb >= keep_minimum_gb` (or it
runs out of candidates). -/
theorem disk_cleanup_correct (pol : DiskPolicy) (fs : VideoFs) :
    (∀ f ∈ (cleanup_old_files pol fs).1,
      f ∈ fs.archive ∧ f.isfile = true ∧ f.name.endsWith ".h264" = true)
    ∧ (cleanup_old_files pol fs).2.currentDir = fs.currentDir
    ∧ List.Pairwise (fun a b => a.mtime ≤ b.mtime) (cleanup_old_files pol fs).1
    ∧ ∃ k, (cleanup_old_files pol fs).1 = (cleanup_candidates fs).take k
        ∧ (∀ j < k, ¬cleanup_done pol fs.total
            (usedBytes fs - archiveBytes ((cleanup_candidates fs).take j)))
        ∧ (k < (cleanup_candidates fs).length → cleanup_done pol fs.total
            (usedBytes fs - archiveBytes ((cleanup_candidates fs).take k))) := by
  obtain ⟨k, hk, heq, hall, hstop⟩ :=
    cleanup_loop_spec pol fs.total (usedBytes fs) (cleanup_candidates fs) 0
  have hdel : (cleanup_old_files pol fs).1 =
      cleanup_loop pol fs.total (usedBytes fs) 0 (cleanup_candidates fs) := rfl
  have hsorted : List.Pairwise (fun a b => file_le a b = true)
      (cleanup_candidates fs) :=
    List.sorted_mergeSort file_le_trans file_le_total _
  refine ⟨?_, rfl, ?_, k, ?_, ?_, ?_⟩
  · intro f hf
    rw [hdel, heq] at hf
    have hmem : f ∈ cleanup_candidates fs :=
      List.mem_of_mem_take hf
    have hperm := List.mergeSort_perm
      (fs.archive.filter (fun g => g.isfile && g.name.endsWith ".h264")) file_le
    rw [cleanup_candidates] at hmem
    have hfil : f ∈ fs.archive.filter
        (fun g => g.isfile && g.name.endsWith ".h264") := hperm.mem_iff.mp hmem
    rw [List.mem_filter] at hfil
    obtain ⟨hmem2, hpred⟩ := hfil
    rw [Bool.and_eq_true] at hpred
    exact ⟨hmem2, hpred.1, hpred.2⟩
  · rw [hdel, heq]
    have hsub : List.Sublist ((cleanup_candidates fs).take k)
        (cleanup_candidates fs) :=
      List.take_sublist k _
    have := hsorted.sublist hsub
    exact this.imp (fun hab => by
      unfold file_le at hab
      simp only [Bool.or_eq_true, Bool.and_eq_true, decide_eq_true_eq] at hab
      rcases hab with h | ⟨h, _⟩
      · omega
      · omega)
  · rw [hdel, heq]
  · intro j hj
    have := hall j hj
    have he : usedBytes fs - (0 + archiveBytes ((cleanup_candidates fs).take j)) =
        usedBytes fs - archiveBytes ((cleanup_candidates fs).take j) := by ring
    rw [he] at this
    exact this
  · intro hlen
    have := hstop hlen
    have he : usedBytes fs - (0 + archiveBytes ((cleanup_candidates fs).take k)) =
        usedBytes fs - archiveBytes ((cleanup_candidates fs).take k) := by ring
    rw [he] at this
    exact this

/-- Witness for `disk_cleanup_correct`: a 100-byte disk at 90% usage
with two archived segments; cleanup deletes the oldest file and the
"current" directory is untouched. -/
theorem disk_cleanup_correct_witness :
    (cleanup_old_files
      { highWaterMark := 8 / 10, keepMinimumGB := 0 }
      { total := 100, usedOther := 50
      , archive := [⟨"front_a.h264", 1, 30, true⟩, ⟨"front_b.h264", 2, 10, true⟩]
      , currentDir := [⟨"front_c.h264", 3, 5, true⟩] }).2.currentDir =
      [⟨"front_c.h264", 3, 5, true⟩] := by
  exact (disk_cleanup_correct
    { highWaterMark := 8 / 10, keepMinimumGB := 0 }
    { total := 100, usedOther := 50
    , archive := [⟨"front_a.h264", 1, 30, true⟩, ⟨"front_b.h264", 2, 10, true⟩]
    , currentDir := [⟨"front_c.h264", 3, 5, true⟩] }).2.1

end DashCam
